import Mathlib

/- Verification of the aggregation and report-shaping pipeline of
src/main.py (class AWSBackupAnalyzer).

Modelling conventions of the shallow embedding:
- Python dictionaries are insertion-ordered association lists.
- Python float arithmetic on backup sizes is modelled exactly, as rationals.
- Python exceptions are modelled with Except values.
- A raw job record is a structure whose fields are Option-valued exactly when
  the code reads them with dict.get (a default); fields the code indexes
  directly (ResourceArn, CreationDate, State) are required.
- Python string comparison (used by min, max and sorted) is code-point
  lexicographic comparison, modelled on the character lists of the strings. -/

namespace BackupAnalyzer

/-- Python str.split(sep) on a character list.  The result is always a
nonempty list of segments; adjacent separators yield empty segments and the
empty string yields one empty segment (used by main.py lines 203 and 245,
job['ResourceArn'].split('/')). -/
def pySplit (sep : Char) : List Char → List (List Char)
  | [] => [[]]
  | c :: cs =>
    match pySplit sep cs with
    | [] => [[]]
    | g :: gs => if c = sep then [] :: g :: gs else (c :: g) :: gs

theorem pySplit_ne_nil (sep : Char) (l : List Char) : pySplit sep l ≠ [] := by
  cases l with
  | nil => simp [pySplit]
  | cons c cs =>
    simp only [pySplit]
    cases h : pySplit sep cs with
    | nil => simp
    | cons g gs => by_cases hc : c = sep <;> simp [hc]

theorem pySplit_of_not_mem {sep : Char} :
    ∀ {l : List Char}, sep ∉ l → pySplit sep l = [l] := by
  intro l
  induction l with
  | nil => intro _; rfl
  | cons c cs ih =>
    intro h
    have hc : ¬ c = sep := by
      intro e
      exact h (e ▸ List.mem_cons_self c cs)
    have hcs : sep ∉ cs := fun m => h (List.mem_cons_of_mem c m)
    simp [pySplit, ih hcs, hc]

/-- Python indexing split(...)[-1]: the last segment of the split, i.e. the
substring after the last separator (the whole string when no separator). -/
def lastSeg (sep : Char) (l : List Char) : List Char :=
  (pySplit sep l).getLast (pySplit_ne_nil sep l)

/-- Resource identity derivation in the Resource Normalizer
(main.py line 203: job['ResourceArn'].split('/')[-1]). -/
def uniqueResourceId (arn : String) : String :=
  (lastSeg '/' arn.data).asString

/-- Resource identity derivation in the per-job backups view
(main.py line 245: job['ResourceArn'].split('/')[-1]). -/
def backupViewResourceId (arn : String) : String :=
  (lastSeg '/' arn.data).asString

theorem lastSeg_of_not_mem {sep : Char} {l : List Char} (h : sep ∉ l) :
    lastSeg sep l = l := by
  unfold lastSeg
  have e := pySplit_of_not_mem h
  have step : ∀ (L : List (List Char)) (hL : L ≠ []), L = [l] → L.getLast hL = l := by
    intro L hL hE
    subst hE
    rfl
  exact step _ _ e

theorem uniqueResourceId_degrade {arn : String} (h : '/' ∉ arn.data) :
    uniqueResourceId arn = arn := by
  unfold uniqueResourceId
  rw [lastSeg_of_not_mem h]
  cases arn
  rfl

/-- Python str.lower as the character-wise ASCII case folding applied by the
classifier (main.py line 221). -/
def pyLower (l : List Char) : List Char := l.map Char.toLower

/-- Python haystack.find(needle) != -1, i.e. substring containment, as the
left-to-right scan the interpreter performs (main.py line 221). -/
def pyContainsSub (needle : List Char) : List Char → Bool
  | [] => decide (needle = [])
  | c :: t => needle.isPrefixOf (c :: t) || pyContainsSub needle t

theorem pyContainsSub_iff (n : List Char) (h : List Char) :
    pyContainsSub n h = true ↔ n <:+: h := by
  induction h with
  | nil => simp [pyContainsSub]
  | cons c t ih =>
    simp [pyContainsSub, ih, List.infix_cons_iff, List.isPrefixOf_iff_prefix]

/-- Calendar timestamp as fetched from the provider; the code only ever
formats it with strftime or projects its year-month. -/
structure DateTime where
  year : Nat
  month : Nat
  day : Nat
  hour : Nat
  minute : Nat
  deriving DecidableEq, Inhabited

/-- Zero padding of the %m, %d, %H and %M strftime fields. -/
def pad2 (n : Nat) : String := if n < 10 then "0" ++ toString n else toString n

/-- strftime('%Y-%m-%d %H:%M'), the timestamp rendering used throughout
main.py. -/
def fmtYMDHM (d : DateTime) : String :=
  toString d.year ++ "-" ++ pad2 d.month ++ "-" ++ pad2 d.day ++ " "
    ++ pad2 d.hour ++ ":" ++ pad2 d.minute

/-- One backup job as fetched by the job lister.  Fields read by dict.get in
the code are optional; ResourceArn, CreationDate and State are indexed
directly (main.py lines 203, 209, 220, 245, 248) and hence required. -/
structure RawJob where
  BackupJobId : Option String
  ResourceArn : String
  ResourceType : Option String
  CreationDate : DateTime
  CompletionDate : Option DateTime
  BackupSizeInBytes : Option Nat
  State : String
  StatusMessage : Option String
  BackupVaultName : Option String
  RecoveryPointArn : Option String
  deriving DecidableEq, Inhabited

/-- Status bucket assigned to one job by get_job_status_summary
(main.py lines 220-224): COMPLETED with a status message containing "issue"
case-insensitively is counted as COMPLETED_WITH_ISSUES, anything else under
its raw state string.  A missing StatusMessage defaults to the empty
string. -/
def jobStatusKey (j : RawJob) : String :=
  if j.State = "COMPLETED"
      ∧ pyContainsSub "issue".data (pyLower (j.StatusMessage.getD "").data) = true then
    "COMPLETED_WITH_ISSUES"
  else
    j.State

/-- defaultdict(int) increment, preserving Python dict insertion order. -/
def bumpCount (k : String) : List (String × Nat) → List (String × Nat)
  | [] => [(k, 1)]
  | (k', v) :: rest => if k' = k then (k', v + 1) :: rest else (k', v) :: bumpCount k rest

/-- AWSBackupAnalyzer.get_job_status_summary (main.py lines 215-226). -/
def get_job_status_summary (jobs : List RawJob) : List (String × Nat) :=
  jobs.foldl (fun m j => bumpCount (jobStatusKey j) m) []

/-- Total of all counters of a status summary. -/
def sumCounts (m : List (String × Nat)) : Nat := (m.map (fun p => p.2)).sum

theorem sumCounts_bumpCount (k : String) (m : List (String × Nat)) :
    sumCounts (bumpCount k m) = sumCounts m + 1 := by
  induction m with
  | nil => rfl
  | cons p rest ih =>
    obtain ⟨k', v⟩ := p
    by_cases h : k' = k
    · simp [bumpCount, h, sumCounts]
      omega
    · simp [bumpCount, h, sumCounts] at ih ⊢
      omega

theorem sumCounts_fold (jobs : List RawJob) (m : List (String × Nat)) :
    sumCounts (jobs.foldl (fun m j => bumpCount (jobStatusKey j) m) m)
      = sumCounts m + jobs.length := by
  induction jobs generalizing m with
  | nil => simp
  | cons j t ih =>
    simp only [List.foldl_cons, ih, sumCounts_bumpCount, List.length_cons]
    omega

/-- One entry of the deduplicated resource registry (main.py lines 205-211). -/
structure ResourceRecord where
  resource_id : String
  resource_type : String
  resource_arn : String
  last_backup : String
  backup_vault : String
  deriving DecidableEq, Inhabited

/-- Resource registry record populated from one job (main.py lines 205-211). -/
def mkResourceRecord (j : RawJob) : ResourceRecord :=
  { resource_id := uniqueResourceId j.ResourceArn
    resource_type := j.ResourceType.getD "N/A"
    resource_arn := j.ResourceArn
    last_backup := fmtYMDHM j.CreationDate
    backup_vault := j.BackupVaultName.getD "N/A" }

/-- One scan step of get_unique_resources: insert a record under the derived
resource id only when the id is not yet a key of the dict. -/
def uniqueResourcesStep (acc : List (String × ResourceRecord)) (j : RawJob) :
    List (String × ResourceRecord) :=
  let rid := uniqueResourceId j.ResourceArn
  if acc.any (fun p => decide (p.1 = rid)) then acc
  else acc ++ [(rid, mkResourceRecord j)]

/-- AWSBackupAnalyzer.get_unique_resources (main.py lines 198-213): the Python
dict is an insertion-ordered association list and list(d.values()) maps the
pairs to their second components. -/
def get_unique_resources (jobs : List RawJob) : List ResourceRecord :=
  (jobs.foldl uniqueResourcesStep []).map (fun p => p.2)

theorem find?_congr_list {α : Type} (p q : α → Bool) :
    ∀ (l : List α), (∀ x ∈ l, p x = q x) → l.find? p = l.find? q := by
  intro l
  induction l with
  | nil => intro _; rfl
  | cons a t ih =>
    intro h
    have ha := h a (List.mem_cons_self a t)
    simp only [List.find?_cons, ha]
    cases q a with
    | true => rfl
    | false => exact ih (fun x hx => h x (List.mem_cons_of_mem a hx))

theorem uniqueResources_fold_find? (jobs : List RawJob) :
    ∀ (acc : List (String × ResourceRecord)) (rid : String),
      (jobs.foldl uniqueResourcesStep acc).find? (fun p => decide (p.1 = rid)) =
        (acc.find? (fun p => decide (p.1 = rid))).or
          ((jobs.find? (fun j => decide (uniqueResourceId j.ResourceArn = rid))).map
            (fun j => (rid, mkResourceRecord j))) := by
  induction jobs with
  | nil => intro acc rid; simp
  | cons j t ih =>
    intro acc rid
    simp only [List.foldl_cons, List.find?_cons]
    by_cases hkey : uniqueResourceId j.ResourceArn = rid
    · subst hkey
      by_cases hmem : acc.any (fun p => decide (p.1 = uniqueResourceId j.ResourceArn)) = true
      · have hstep : uniqueResourcesStep acc j = acc := by
          simp [uniqueResourcesStep, hmem]
        rw [hstep, ih]
        have hsome : (acc.find? (fun p => decide (p.1 = uniqueResourceId j.ResourceArn))).isSome = true := by
          rw [List.find?_isSome]
          rcases List.any_eq_true.mp hmem with ⟨x, hx, hpx⟩
          exact ⟨x, hx, hpx⟩
        obtain ⟨v, hv⟩ := Option.isSome_iff_exists.mp hsome
        simp [hv]
      · have hstep : uniqueResourcesStep acc j =
            acc ++ [(uniqueResourceId j.ResourceArn, mkResourceRecord j)] := by
          simp only [uniqueResourcesStep]
          rw [if_neg hmem]
        have hnone : acc.find? (fun p => decide (p.1 = uniqueResourceId j.ResourceArn)) = none := by
          rw [List.find?_eq_none]
          intro x hx
          simp only [decide_eq_true_eq]
          intro hpx
          exact hmem (List.any_eq_true.mpr ⟨x, hx, by simp [hpx]⟩)
        rw [hstep, ih]
        rw [List.find?_append, hnone]
        simp
    · by_cases hmem : acc.any (fun p => decide (p.1 = uniqueResourceId j.ResourceArn)) = true
      · have hstep : uniqueResourcesStep acc j = acc := by
          simp [uniqueResourcesStep, hmem]
        rw [hstep, ih]
        simp [hkey]
      · have hstep : uniqueResourcesStep acc j =
            acc ++ [(uniqueResourceId j.ResourceArn, mkResourceRecord j)] := by
          simp only [uniqueResourcesStep]
          rw [if_neg hmem]
        rw [hstep, ih]
        rw [List.find?_append]
        have hsingle : ([(uniqueResourceId j.ResourceArn, mkResourceRecord j)].find?
            (fun p => decide (p.1 = rid))) = none := by
          simp [hkey]
        rw [hsingle]
        simp [hkey]

theorem uniqueResources_fold_key_inv (jobs : List RawJob) :
    ∀ (acc : List (String × ResourceRecord)),
      (∀ p ∈ acc, p.2.resource_id = p.1) →
      ∀ p ∈ jobs.foldl uniqueResourcesStep acc, p.2.resource_id = p.1 := by
  induction jobs with
  | nil => intro acc hacc p hp; exact hacc p hp
  | cons j t ih =>
    intro acc hacc p hp
    simp only [List.foldl_cons] at hp
    refine ih (uniqueResourcesStep acc j) ?_ p hp
    intro q hq
    simp only [uniqueResourcesStep] at hq
    by_cases hmem : acc.any (fun p => decide (p.1 = uniqueResourceId j.ResourceArn)) = true
    · rw [if_pos hmem] at hq
      exact hacc q hq
    · rw [if_neg hmem] at hq
      rcases List.mem_append.mp hq with h1 | h2
      · exact hacc q h1
      · rcases List.mem_singleton.mp h2 with rfl
        rfl

theorem uniqueResources_fold_nodup (jobs : List RawJob) :
    ∀ (acc : List (String × ResourceRecord)),
      (acc.map (fun p => p.1)).Nodup →
      ((jobs.foldl uniqueResourcesStep acc).map (fun p => p.1)).Nodup := by
  induction jobs with
  | nil => intro acc hacc; exact hacc
  | cons j t ih =>
    intro acc hacc
    simp only [List.foldl_cons]
    refine ih (uniqueResourcesStep acc j) ?_
    simp only [uniqueResourcesStep]
    by_cases hmem : acc.any (fun p => decide (p.1 = uniqueResourceId j.ResourceArn)) = true
    · rw [if_pos hmem]; exact hacc
    · rw [if_neg hmem]
      rw [List.map_append]
      simp only [List.map_cons, List.map_nil]
      rw [List.nodup_append]
      refine ⟨hacc, List.nodup_singleton _, ?_⟩
      intro a ha hb
      rw [List.mem_singleton] at hb
      subst hb
      rcases List.mem_map.mp ha with ⟨p, hp, hpa⟩
      exact hmem (List.any_eq_true.mpr ⟨p, hp, by simp [hpa]⟩)

/-- One entry of report['backups'], the per-job normalized view
(main.py lines 243-254).  The State field is required in the raw record, so
the .get('State', 'N/A') read passes it through unchanged. -/
structure ViewRec where
  backup_job_id : String
  resource_id : String
  resource_type : String
  backup_size_gb : Rat
  creation_date : String
  completion_date : String
  state : String
  status_message : String
  vault_name : String
  recovery_point_arn : String
  deriving DecidableEq, Inhabited

/-- Per-job view record built from one raw job (main.py lines 243-254):
size in GB is BackupSizeInBytes (default 0) divided by 1024 cubed, the
completion date renders only when present, every other optional field
defaults to the sentinel string. -/
def mkViewRec (j : RawJob) : ViewRec :=
  { backup_job_id := j.BackupJobId.getD "N/A"
    resource_id := backupViewResourceId j.ResourceArn
    resource_type := j.ResourceType.getD "N/A"
    backup_size_gb := (j.BackupSizeInBytes.getD 0 : Rat) / (1024 : Rat) ^ 3
    creation_date := fmtYMDHM j.CreationDate
    completion_date :=
      match j.CompletionDate with
      | some d => fmtYMDHM d
      | none => "N/A"
    state := j.State
    status_message := j.StatusMessage.getD "N/A"
    vault_name := j.BackupVaultName.getD "N/A"
    recovery_point_arn := j.RecoveryPointArn.getD "N/A" }

/-- One backup rule as returned inside plan details; Option-valued fields are
the ones read with dict.get in main.py lines 181-188. -/
structure RuleRaw where
  RuleName : Option String
  TargetBackupVaultName : Option String
  ScheduleExpression : Option String
  StartWindowMinutes : Option Nat
  CompletionWindowMinutes : Option Nat
  Lifecycle : Option (List (String × Nat))
  EnableContinuousBackup : Option Bool
  deriving DecidableEq, Inhabited

/-- Python values of mixed type appearing in sheet cells (a field that is a
number when present and the string sentinel when absent). -/
inductive PVal where
  | s (v : String)
  | n (v : Nat)
  | q (v : Rat)
  deriving DecidableEq, Inhabited

/-- Rule entry of a plan as assembled by main.py lines 181-189. -/
structure RuleEntry where
  rule_name : String
  target_vault_name : String
  schedule_expression : String
  start_window_minutes : PVal
  completion_window_minutes : PVal
  lifecycle : List (String × Nat)
  enable_continuous_backup : Bool
  deriving DecidableEq, Inhabited

def mkRuleEntry (r : RuleRaw) : RuleEntry :=
  { rule_name := r.RuleName.getD "N/A"
    target_vault_name := r.TargetBackupVaultName.getD "N/A"
    schedule_expression := r.ScheduleExpression.getD "N/A"
    start_window_minutes := (r.StartWindowMinutes.map PVal.n).getD (PVal.s "N/A")
    completion_window_minutes := (r.CompletionWindowMinutes.map PVal.n).getD (PVal.s "N/A")
    lifecycle := r.Lifecycle.getD []
    enable_continuous_backup := r.EnableContinuousBackup.getD false }

/-- One backup selection as returned by the selection detail fetcher;
Option-valued fields are the ones read with dict.get in main.py
lines 167-170. -/
structure SelRaw where
  SelectionName : Option String
  IamRoleArn : Option String
  Resources : Option (List String)
  Conditions : Option (List (String × String))
  deriving DecidableEq, Inhabited

/-- Selection entry of a plan as assembled by main.py lines 166-171. -/
structure SelEntry where
  selection_name : String
  iam_role_arn : String
  resources : List String
  conditions : List (String × String)
  deriving DecidableEq, Inhabited

def mkSelEntry (s : SelRaw) : SelEntry :=
  { selection_name := s.SelectionName.getD "N/A"
    iam_role_arn := s.IamRoleArn.getD "N/A"
    resources := s.Resources.getD []
    conditions := s.Conditions.getD [] }

/-- Outcome of the inner selection-fetch loop of one plan (main.py
lines 157-173): the selections appended before any exception, and whether the
loop ended in the except branch (which only logs).  On failure the fetched
list is a partial prefix, possibly empty. -/
structure SelFetch where
  fetched : List SelRaw
  failed : Bool
  deriving DecidableEq, Inhabited

/-- Collector-stage input for one plan: the plan summary and detail fields
plus the outcome of its selection fetch. -/
structure PlanInput where
  BackupPlanId : String
  BackupPlanName : Option String
  VersionId : Option String
  CreationDate : DateTime
  DeploymentStatus : Option String
  Rules : Option (List RuleRaw)
  selFetch : SelFetch
  deriving DecidableEq, Inhabited

/-- One plan entry of the report (main.py lines 175-191). -/
structure PlanEntry where
  plan_id : String
  plan_name : String
  version_id : String
  creation_date : String
  deployment_status : String
  rules : List RuleEntry
  selections : List SelEntry
  deriving DecidableEq, Inhabited

/-- Plan entry appended for one plan regardless of its selection-fetch
outcome (main.py lines 175-191): the except branch at line 172 only logs, so
the append at line 175 always runs, with whatever selections were fetched. -/
def mkPlanEntry (p : PlanInput) : PlanEntry :=
  { plan_id := p.BackupPlanId
    plan_name := p.BackupPlanName.getD "N/A"
    version_id := p.VersionId.getD "N/A"
    creation_date := fmtYMDHM p.CreationDate
    deployment_status := p.DeploymentStatus.getD "N/A"
    rules := (p.Rules.getD []).map mkRuleEntry
    selections := p.selFetch.fetched.map mkSelEntry }

/-- AWSBackupAnalyzer.get_backup_plans (main.py lines 145-196) on the
outcomes handed back by the pager: one entry per listed plan. -/
def get_backup_plans (ps : List PlanInput) : List PlanEntry :=
  ps.map mkPlanEntry

/-- Storage section of the report (main.py lines 256-259); volume and
snapshot rows are passed through to their sheets verbatim, so they are kept
as opaque field lists. -/
structure Storage where
  ebs_volumes : List (List (String × String))
  snapshots : List (List (String × String))
  deriving DecidableEq, Inhabited

/-- The assembled report document (main.py lines 235-260). -/
structure Report where
  generated_at : String
  region : String
  period_days : Nat
  total_backups : Nat
  job_status_summary : List (String × Nat)
  plans : List PlanEntry
  unique_resources : List ResourceRecord
  backups : List ViewRec
  storage : Storage
  deriving DecidableEq, Inhabited

/-- AWSBackupAnalyzer.generate_backup_report (main.py lines 228-260); the
clock reading and the collector outputs are explicit arguments. -/
def generate_backup_report (generatedAt : String) (region : String) (days : Nat)
    (jobs : List RawJob) (planInputs : List PlanInput) (storage : Storage) : Report :=
  { generated_at := generatedAt
    region := region
    period_days := days
    total_backups := jobs.length
    job_status_summary := get_job_status_summary jobs
    plans := get_backup_plans planInputs
    unique_resources := get_unique_resources jobs
    backups := jobs.map mkViewRec
    storage := storage }

/-- Python string strict comparison: code-point lexicographic order on the
character lists (the order behind min, max and sorted on str). -/
def lexLt : List Char → List Char → Bool
  | _, [] => false
  | [], _ :: _ => true
  | a :: as, b :: bs =>
    decide (a.toNat < b.toNat) || (decide (a.toNat = b.toNat) && lexLt as bs)

/-- Nonstrict form of the Python string order. -/
def strLe (a b : String) : Bool := !(lexLt b.data a.data)

/-- Python min over a sequence of strings, keeping the first minimum;
ValueError on an empty sequence (main.py line 294). -/
def pyMinStr : List String → Except String String
  | [] => Except.error "ValueError: min() arg is an empty sequence"
  | a :: t => Except.ok (t.foldl (fun m s => if lexLt s.data m.data then s else m) a)

/-- Python max over a sequence of strings, keeping the first maximum;
ValueError on an empty sequence (main.py line 295). -/
def pyMaxStr : List String → Except String String
  | [] => Except.error "ValueError: max() arg is an empty sequence"
  | a :: t => Except.ok (t.foldl (fun m s => if lexLt m.data s.data then s else m) a)

/-- Python round(x, 2) on the exact rational model of the float arithmetic:
round half to even at two decimal places (main.py lines 298, 349, 350). -/
def round2 (x : Rat) : Rat :=
  let y := x * 100
  let f := ⌊y⌋
  let r := y - f
  let k :=
    if r < 1 / 2 then f
    else if 1 / 2 < r then f + 1
    else if f % 2 = 0 then f else f + 1
  (k : Rat) / 100

/-- Row labels of the Summary sheet (main.py lines 273-289). -/
def summaryLabels : List String :=
  ["Report Generation Date", "Region", "Period (days)", "First Backup Date",
   "Last Backup Date", "Total Unique Resources", "Total Backups",
   "Total Size (TB)", "", "Job Status Summary:", "COMPLETED",
   "COMPLETED_WITH_ISSUES", "FAILED", "EXPIRED", "PARTIAL"]

/-- Python dict .get(key, 0) on a status summary (main.py lines 301-305). -/
def statusLookup (m : List (String × Nat)) (k : String) : Nat :=
  match m.find? (fun p => decide (p.1 = k)) with
  | some p => p.2
  | none => 0

/-- Summary sheet of create_excel_report (main.py lines 272-311): label/value
pairs; the min and max over backups raise ValueError when the backups list is
empty, and that exception propagates out of the sheet construction. -/
def summaryTable (r : Report) : Except String (List (String × PVal)) :=
  match pyMinStr (r.backups.map (fun b => b.creation_date)),
        pyMaxStr (r.backups.map (fun b => b.creation_date)) with
  | Except.ok first, Except.ok last =>
    Except.ok (summaryLabels.zip
      [PVal.s r.generated_at, PVal.s r.region, PVal.n r.period_days,
       PVal.s first, PVal.s last,
       PVal.n r.unique_resources.length, PVal.n r.backups.length,
       PVal.q (round2 ((r.backups.map (fun b => b.backup_size_gb)).sum / 1024)),
       PVal.s "", PVal.s "",
       PVal.n (statusLookup r.job_status_summary "COMPLETED"),
       PVal.n (statusLookup r.job_status_summary "COMPLETED_WITH_ISSUES"),
       PVal.n (statusLookup r.job_status_summary "FAILED"),
       PVal.n (statusLookup r.job_status_summary "EXPIRED"),
       PVal.n (statusLookup r.job_status_summary "PARTIAL")])
  | Except.error e, _ => Except.error e
  | _, Except.error e => Except.error e

/-- One row of the Backup Plans sheet (main.py lines 321-330). -/
structure PlanRow where
  plan_name : String
  plan_id : String
  creation_date : String
  rule_name : String
  schedule : String
  vault : String
  retention_days : PVal
  resources_count : Nat
  deriving DecidableEq, Inhabited

/-- Backup Plans sheet: one row per (plan, rule) pair (main.py
lines 318-333). -/
def plansTable (plans : List PlanEntry) : List PlanRow :=
  plans.flatMap (fun p => p.rules.map (fun ru =>
    { plan_name := p.plan_name
      plan_id := p.plan_id
      creation_date := p.creation_date
      rule_name := ru.rule_name
      schedule := ru.schedule_expression
      vault := ru.target_vault_name
      retention_days :=
        match ru.lifecycle.find? (fun kv => decide (kv.1 = "DeleteAfterDays")) with
        | some kv => PVal.n kv.2
        | none => PVal.s "N/A"
      resources_count := (p.selections.map (fun sel => sel.resources.length)).sum }))

/-- defaultdict step of the Resource Summary grouping (main.py lines 341-344):
the entry for a resource id is created at its first job with count 1 and then
incremented, accumulating size in GB. -/
def bumpResource (rid : String) (gb : Rat) :
    List (String × Nat × Rat) → List (String × Nat × Rat)
  | [] => [(rid, 1, gb)]
  | (k, c, s) :: rest =>
    if k = rid then (k, c + 1, s + gb) :: rest
    else (k, c, s) :: bumpResource rid gb rest

/-- Grouping pass of the Resource Summary sheet (main.py lines 340-344):
insertion-ordered entries (resource_id, count, accumulated GB). -/
def resourceSummaryAcc (backups : List ViewRec) : List (String × Nat × Rat) :=
  backups.foldl (fun acc j => bumpResource j.resource_id j.backup_size_gb acc) []

/-- One row of the Resource Summary sheet (main.py lines 346-351). -/
structure ResourceRow where
  resource_id : String
  total_backups : Nat
  total_size_tb : Rat
  average_size_gb : Rat
  deriving DecidableEq, Inhabited

/-- Resource Summary sheet rows (main.py lines 346-354): the average divides
the accumulated size by the group count. -/
def resourceSummaryTable (backups : List ViewRec) : List ResourceRow :=
  (resourceSummaryAcc backups).map (fun e =>
    { resource_id := e.1
      total_backups := e.2.1
      total_size_tb := round2 (e.2.2 / 1024)
      average_size_gb := round2 (e.2.2 / (e.2.1 : Rat)) })

/-- Month key of a backups row (main.py line 357):
pd.to_datetime(creation_date).dt.to_period('M') on a string produced by
strftime('%Y-%m-%d %H:%M') renders as its leading "YYYY-MM" label, i.e. the
first seven characters of the formatted date. -/
def monthKey (r : ViewRec) : String := (r.creation_date.data.take 7).asString

/-- Ascending insertion for the Python sorted() on strings. -/
def insertAsc (a : String) : List String → List String
  | [] => [a]
  | b :: t => if strLe a b then a :: b :: t else b :: insertAsc a t

/-- Python sorted() on strings (main.py line 403); after dedup the keys are
distinct, so any sort produces the same ascending list. -/
def sortAsc (l : List String) : List String := l.foldr insertAsc []

/-- Distinct resource ids in ascending order: the row index shared by the
three pivot_table calls of main.py lines 368-395 (pandas sorts the index). -/
def pivotRowsOf (backups : List ViewRec) : List String :=
  sortAsc (backups.map (fun b => b.resource_id)).dedup

/-- Distinct month labels in ascending order: all_months of main.py line 403.
The pivot column labels have the form "YYYY-MM (GB Avg)", so the
col.split(' ')[0] of line 403 recovers exactly the month labels present in
the job data. -/
def pivotMonthsOf (backups : List ViewRec) : List String :=
  sortAsc (backups.map monthKey).dedup

/-- Jobs of one (resource_id, month) pivot group. -/
def cellJobs (backups : List ViewRec) (rid m : String) : List ViewRec :=
  backups.filter (fun j => decide (j.resource_id = rid ∧ monthKey j = m))

/-- One pivot cell: (count, mean GB, total GB) of the group's sizes.  A pair
with no jobs is absent from all three groupings, so all three pivot_table
calls fill it with 0 (fill_value=0, main.py lines 368-395). -/
def pivotCell (backups : List ViewRec) (rid m : String) : Rat × Rat × Rat :=
  let js := cellJobs backups rid m
  let tot := (js.map (fun j => j.backup_size_gb)).sum
  if js.length = 0 then (0, 0, 0)
  else ((js.length : Rat), tot / (js.length : Rat), tot)

/-- One row of the Monthly Resource Summary sheet: for each month of the
column range, the triplet Count, GB Avg, GB Total, in the sorted_columns
order of main.py lines 402-413 (the concat of the three single-metric pivots
reindexed to month-grouped triplets). -/
def pivotRowFor (backups : List ViewRec) (rid : String) : List Rat :=
  (pivotMonthsOf backups).flatMap (fun m =>
    [(pivotCell backups rid m).1, (pivotCell backups rid m).2.1,
     (pivotCell backups rid m).2.2])

/-- Monthly Resource Summary sheet (main.py lines 356-415): one row per
resource id over the month-grouped triplet columns. -/
def monthlyPivotTable (backups : List ViewRec) : List (String × List Rat) :=
  (pivotRowsOf backups).map (fun rid => (rid, pivotRowFor backups rid))

/-- Contents of the eight sheets written by create_excel_report. -/
structure Tables where
  summary : List (String × PVal)
  unique_resources : List ResourceRecord
  backup_plans : List PlanRow
  backup_jobs : List ViewRec
  resource_summary : List ResourceRow
  monthly_pivot : List (String × List Rat)
  ebs_volumes : List (List (String × String))
  snapshots : List (List (String × String))
  deriving DecidableEq, Inhabited

/-- AWSBackupAnalyzer.create_excel_report (main.py lines 262-415) as a
function from the report document to the sheet contents, paired with the
document as the procedure leaves it.  The only assignment in the body targets
the local DataFrame copy df_jobs (line 357, after the Backup Jobs sheet was
already written), never the report, so the document component is the input
document; the ValueError of the Summary min/max propagates. -/
def create_excel_report (r : Report) : Except String (Tables × Report) :=
  match summaryTable r with
  | Except.error e => Except.error e
  | Except.ok sm =>
    Except.ok
      ({ summary := sm
         unique_resources := r.unique_resources
         backup_plans := plansTable r.plans
         backup_jobs := r.backups
         resource_summary := resourceSummaryTable r.backups
         monthly_pivot := monthlyPivotTable r.backups
         ebs_volumes := r.storage.ebs_volumes
         snapshots := r.storage.snapshots }, r)

/-- Numeric value of a decimal digit character. -/
def digitVal (c : Char) : Option Nat :=
  if c.isDigit then some (c.toNat - 48) else none

/-- Parse a "YYYY-MM" month label into (year, month). -/
def parseYM (s : String) : Option (Nat × Nat) :=
  match s.data with
  | [y1, y2, y3, y4, sep, m1, m2] =>
    if sep = '-' then
      match digitVal y1, digitVal y2, digitVal y3, digitVal y4,
            digitVal m1, digitVal m2 with
      | some a, some b, some c, some d, some e, some f =>
        some (((a * 10 + b) * 10 + c) * 10 + d, e * 10 + f)
      | _, _, _, _, _, _ => none
    else none
  | _ => none

/-- Linear month index of a (year, month) pair. -/
def ymIdx (p : Nat × Nat) : Nat := p.1 * 12 + p.2

/-- The month labelled m lies within the calendar range spanned by the months
labelled lo and hi (all three labels well-formed "YYYY-MM" strings). -/
def monthInRange (m lo hi : String) : Bool :=
  match parseYM m, parseYM lo, parseYM hi with
  | some a, some l, some h => decide (ymIdx l ≤ ymIdx a ∧ ymIdx a ≤ ymIdx h)
  | _, _, _ => false

/-- Sample raw job used to instantiate theorems with hypotheses. -/
def c5job : RawJob :=
  { BackupJobId := some "b1"
    ResourceArn := "vol-0a1"
    ResourceType := some "EBS"
    CreationDate := { year := 2024, month := 5, day := 1, hour := 10, minute := 0 }
    CompletionDate := none
    BackupSizeInBytes := some 1073741824
    State := "COMPLETED"
    StatusMessage := none
    BackupVaultName := some "Default"
    RecoveryPointArn := none }

/-- Sample raw job with every optional field absent. -/
def c7job : RawJob :=
  { BackupJobId := none
    ResourceArn := "arn:aws:ec2:us-east-1:123456789012:volume/vol-0abc"
    ResourceType := none
    CreationDate := { year := 2024, month := 5, day := 1, hour := 10, minute := 0 }
    CompletionDate := none
    BackupSizeInBytes := none
    State := "FAILED"
    StatusMessage := none
    BackupVaultName := none
    RecoveryPointArn := none }

/-- Sample plan whose selection fetch failed before any selection was
retrieved. -/
def c8plan : PlanInput :=
  { BackupPlanId := "plan-1"
    BackupPlanName := some "daily"
    VersionId := some "v1"
    CreationDate := { year := 2024, month := 4, day := 2, hour := 8, minute := 30 }
    DeploymentStatus := some "COMPLETED"
    Rules := some [{ RuleName := some "rule-1"
                     TargetBackupVaultName := some "Default"
                     ScheduleExpression := some "cron(0 5 ? * * *)"
                     StartWindowMinutes := some 60
                     CompletionWindowMinutes := some 120
                     Lifecycle := some [("DeleteAfterDays", 35)]
                     EnableContinuousBackup := some false }]
    selFetch := { fetched := [], failed := true } }

/-- Sample per-job view record of the report used by projector witnesses. -/
def c9viewrec : ViewRec :=
  { backup_job_id := "b1"
    resource_id := "vol-1"
    resource_type := "EBS"
    backup_size_gb := 5
    creation_date := "2024-05-01 10:00"
    completion_date := "2024-05-01 11:00"
    state := "COMPLETED"
    status_message := "N/A"
    vault_name := "Default"
    recovery_point_arn := "N/A" }

/-- Sample report with one backup row. -/
def c9report : Report :=
  { generated_at := "2025-01-01 00:00:00"
    region := "us-east-1"
    period_days := 90
    total_backups := 1
    job_status_summary := [("COMPLETED", 1)]
    plans := []
    unique_resources := []
    backups := [c9viewrec]
    storage := { ebs_volumes := [], snapshots := [] } }

/-- The successful projector output on the sample report. -/
def c9pair : Tables × Report := ((create_excel_report c9report).toOption).getD default

/-- Two jobs of one resource in months 2024-01 and 2024-03, with no job at
all in 2024-02. -/
def c1gapA : ViewRec :=
  { c9viewrec with creation_date := "2024-01-15 10:00" }

def c1gapB : ViewRec :=
  { c9viewrec with
    backup_job_id := "b2"
    backup_size_gb := 3
    creation_date := "2024-03-15 10:00" }

def c1gapBackups : List ViewRec := [c1gapA, c1gapB]

/-- Two resources observed in different months, so that the (vol-2, 2024-01)
pivot pair has no jobs. -/
def c1wA : ViewRec :=
  { c9viewrec with creation_date := "2024-01-15 10:00" }

def c1wB : ViewRec :=
  { c9viewrec with
    backup_job_id := "b2"
    resource_id := "vol-2"
    backup_size_gb := 3
    creation_date := "2024-02-10 09:30" }

def c1wBackups : List ViewRec := [c1wA, c1wB]

/-- C2: when the report holds zero backup jobs for the requested window, the
Summary construction does not surface a documented "no data" sentinel: the
min over report['backups'] creation dates raises ValueError (min of an empty
sequence), which propagates out of create_excel_report. -/
theorem summary_empty_backups_valueError :
    create_excel_report
        (generate_backup_report "2025-01-01 00:00:00" "us-east-1" 90 [] []
          { ebs_volumes := [], snapshots := [] })
      = Except.error "ValueError: min() arg is an empty sequence" := rfl

theorem statusLookup_cons (k k' : String) (v : Nat) (rest : List (String × Nat)) :
    statusLookup ((k', v) :: rest) k = if k' = k then v else statusLookup rest k := by
  by_cases h : k' = k <;> simp [statusLookup, List.find?_cons, h]

theorem statusLookup_bumpCount (k q : String) (m : List (String × Nat)) :
    statusLookup (bumpCount q m) k
      = statusLookup m k + (if q = k then 1 else 0) := by
  induction m with
  | nil =>
    by_cases h : q = k <;> simp [bumpCount, statusLookup_cons, statusLookup, h]
  | cons p rest ih =>
    obtain ⟨k', v⟩ := p
    by_cases hq : k' = q
    · subst hq
      simp only [bumpCount, if_pos rfl]
      by_cases hk : k' = k
      · subst hk
        simp [statusLookup_cons]
      · simp [statusLookup_cons, hk]
    · simp only [bumpCount, if_neg hq]
      by_cases hk : k' = k
      · subst hk
        have hq2 : ¬ q = k' := fun e => hq e.symm
        simp [statusLookup_cons, hq2]
      · simp [statusLookup_cons, hk, ih]

theorem statusLookup_fold (jobs : List RawJob) (m : List (String × Nat)) (k : String) :
    statusLookup (jobs.foldl (fun m j => bumpCount (jobStatusKey j) m) m) k
      = statusLookup m k
        + (jobs.filter (fun x => decide (jobStatusKey x = k))).length := by
  induction jobs generalizing m with
  | nil => simp
  | cons j t ih =>
    simp only [List.foldl_cons, ih, statusLookup_bumpCount, List.filter_cons]
    by_cases h : jobStatusKey j = k
    · simp [h]
      omega
    · simp [h]

/-- C3: the status classifier buckets a job as COMPLETED_WITH_ISSUES
precisely when its state is COMPLETED and its status message (the empty
string when absent) contains the substring "issue" case-insensitively; any
other job is bucketed under its raw state string verbatim, and the summary
counter of each bucket counts exactly the jobs mapped to it. -/
theorem jobStatusKey_classification (j : RawJob) (jobs : List RawJob) (k : String) :
    (jobStatusKey j =
      if j.State = "COMPLETED"
          ∧ "issue".data <:+: pyLower (j.StatusMessage.getD "").data then
        "COMPLETED_WITH_ISSUES"
      else j.State) ∧
    statusLookup (get_job_status_summary jobs) k
      = (jobs.filter (fun x => decide (jobStatusKey x = k))).length := by
  constructor
  · unfold jobStatusKey
    exact if_congr (and_congr_right fun _ => pyContainsSub_iff _ _) rfl rfl
  · unfold get_job_status_summary
    rw [statusLookup_fold]
    simp [statusLookup]

/-- C4: the counts of the status summary produced by the classifier always
sum to the number of jobs. -/
theorem statusSummary_sum_eq_length (jobs : List RawJob) :
    sumCounts (get_job_status_summary jobs) = jobs.length := by
  unfold get_job_status_summary
  rw [sumCounts_fold]
  simp [sumCounts]

/-- C5: the resource identity derivation (substring of the locator after the
last path separator, the whole locator when no separator occurs) agrees
between the Resource Normalizer, the per-job backups view and the pivot row
keys: two jobs with the same locator yield the same resource id
everywhere. -/
theorem resourceId_derivation_consistent (j1 j2 : RawJob)
    (h : j1.ResourceArn = j2.ResourceArn) :
    uniqueResourceId j1.ResourceArn = backupViewResourceId j2.ResourceArn ∧
    (mkViewRec j2).resource_id = uniqueResourceId j1.ResourceArn ∧
    (mkResourceRecord j1).resource_id = (mkViewRec j2).resource_id ∧
    pivotRowsOf [mkViewRec j2] = [uniqueResourceId j1.ResourceArn] ∧
    ('/' ∉ j1.ResourceArn.data → uniqueResourceId j1.ResourceArn = j1.ResourceArn) := by
  have e : uniqueResourceId j2.ResourceArn = backupViewResourceId j2.ResourceArn := rfl
  have hsing : pivotRowsOf [mkViewRec j2] = [(mkViewRec j2).resource_id] := by
    unfold pivotRowsOf
    rw [List.map_cons, List.map_nil, List.dedup_cons_of_not_mem (by simp),
      List.dedup_nil]
    rfl
  refine ⟨?_, ?_, ?_, ?_, fun hnm => uniqueResourceId_degrade hnm⟩
  · rw [h]; exact e
  · show backupViewResourceId j2.ResourceArn = uniqueResourceId j1.ResourceArn
    rw [h]; exact e.symm
  · show uniqueResourceId j1.ResourceArn = backupViewResourceId j2.ResourceArn
    rw [h]; exact e
  · rw [hsing, h]
    show [backupViewResourceId j2.ResourceArn] = [uniqueResourceId j2.ResourceArn]
    rw [e]

theorem resourceId_derivation_consistent_witness :
    uniqueResourceId c5job.ResourceArn = backupViewResourceId c5job.ResourceArn ∧
    (mkViewRec c5job).resource_id = uniqueResourceId c5job.ResourceArn ∧
    (mkResourceRecord c5job).resource_id = (mkViewRec c5job).resource_id ∧
    pivotRowsOf [mkViewRec c5job] = [uniqueResourceId c5job.ResourceArn] ∧
    ('/' ∉ c5job.ResourceArn.data → uniqueResourceId c5job.ResourceArn = c5job.ResourceArn) :=
  resourceId_derivation_consistent c5job c5job rfl

/-- C6: the Resource Normalizer is first-write-wins: looking any resource id
up in its output finds exactly the record built from the first job of the
scan bearing that id (and nothing when no job bears it), and the output holds
exactly one record per distinct resource id. -/
theorem uniqueResources_first_write_wins (jobs : List RawJob) (rid : String) :
    (get_unique_resources jobs).find? (fun r => decide (r.resource_id = rid))
      = (jobs.find? (fun j => decide (uniqueResourceId j.ResourceArn = rid))).map
          mkResourceRecord ∧
    ((get_unique_resources jobs).map (fun r => r.resource_id)).Nodup := by
  have inv := uniqueResources_fold_key_inv jobs [] (by simp)
  constructor
  · unfold get_unique_resources
    rw [List.find?_map]
    have congr1 : (jobs.foldl uniqueResourcesStep []).find?
        ((fun r => decide (r.resource_id = rid)) ∘ (fun p => p.2))
        = (jobs.foldl uniqueResourcesStep []).find? (fun p => decide (p.1 = rid)) := by
      refine find?_congr_list _ _ _ ?_
      intro p hp
      simp [Function.comp, inv p hp]
    rw [congr1, uniqueResources_fold_find? jobs [] rid]
    simp only [List.find?_nil, Option.none_or]
    cases jobs.find? (fun j => decide (uniqueResourceId j.ResourceArn = rid)) with
    | none => rfl
    | some j => rfl
  · unfold get_unique_resources
    rw [List.map_map]
    have congr2 : (jobs.foldl uniqueResourcesStep []).map
        ((fun r => r.resource_id) ∘ (fun p => p.2))
        = (jobs.foldl uniqueResourcesStep []).map (fun p => p.1) := by
      refine List.map_congr_left ?_
      intro p hp
      simp [Function.comp, inv p hp]
    rw [congr2]
    exact uniqueResources_fold_nodup jobs [] (by simp)

/-- C7: every record of the assembled report's backups view renders size in
GB as the raw byte size (0 when absent) divided by 2 to the 30, renders the
completion date exactly when present and the sentinel "N/A" otherwise, and
fills every other absent optional field with the sentinel "N/A" rather than
leaving it null or absent. -/
theorem backupsView_fields (ga rg : String) (days : Nat) (jobs : List RawJob)
    (pis : List PlanInput) (st : Storage) (j : RawJob) (hj : j ∈ jobs) :
    mkViewRec j ∈ (generate_backup_report ga rg days jobs pis st).backups ∧
    (mkViewRec j).backup_size_gb = (j.BackupSizeInBytes.getD 0 : Rat) / 2 ^ 30 ∧
    (∀ d, j.CompletionDate = some d → (mkViewRec j).completion_date = fmtYMDHM d) ∧
    (j.CompletionDate = none → (mkViewRec j).completion_date = "N/A") ∧
    (j.BackupJobId = none → (mkViewRec j).backup_job_id = "N/A") ∧
    (j.ResourceType = none → (mkViewRec j).resource_type = "N/A") ∧
    (j.StatusMessage = none → (mkViewRec j).status_message = "N/A") ∧
    (j.BackupVaultName = none → (mkViewRec j).vault_name = "N/A") ∧
    (j.RecoveryPointArn = none → (mkViewRec j).recovery_point_arn = "N/A") := by
  refine ⟨?_, ?_, ?_, ?_, ?_, ?_, ?_, ?_, ?_⟩
  · exact List.mem_map_of_mem mkViewRec hj
  · show (j.BackupSizeInBytes.getD 0 : Rat) / (1024 : Rat) ^ 3 = _
    norm_num
  · intro d hd
    simp [mkViewRec, hd]
  · intro hd
    simp [mkViewRec, hd]
  · intro hd
    simp [mkViewRec, hd]
  · intro hd
    simp [mkViewRec, hd]
  · intro hd
    simp [mkViewRec, hd]
  · intro hd
    simp [mkViewRec, hd]
  · intro hd
    simp [mkViewRec, hd]

theorem backupsView_fields_witness :
    mkViewRec c7job ∈ (generate_backup_report "2025-01-01 00:00:00" "us-east-1" 90
      [c7job] [] { ebs_volumes := [], snapshots := [] }).backups ∧
    (mkViewRec c7job).backup_size_gb = (c7job.BackupSizeInBytes.getD 0 : Rat) / 2 ^ 30 ∧
    (∀ d, c7job.CompletionDate = some d → (mkViewRec c7job).completion_date = fmtYMDHM d) ∧
    (c7job.CompletionDate = none → (mkViewRec c7job).completion_date = "N/A") ∧
    (c7job.BackupJobId = none → (mkViewRec c7job).backup_job_id = "N/A") ∧
    (c7job.ResourceType = none → (mkViewRec c7job).resource_type = "N/A") ∧
    (c7job.StatusMessage = none → (mkViewRec c7job).status_message = "N/A") ∧
    (c7job.BackupVaultName = none → (mkViewRec c7job).vault_name = "N/A") ∧
    (c7job.RecoveryPointArn = none → (mkViewRec c7job).recovery_point_arn = "N/A") :=
  backupsView_fields "2025-01-01 00:00:00" "us-east-1" 90 [c7job] []
    { ebs_volumes := [], snapshots := [] } c7job (List.mem_singleton.mpr rfl)

/-- C8: a plan whose selection fetch failed still yields a plan entry with
the (possibly empty) partially-fetched selections and all other plan fields
populated, and the plan collector returns one entry per listed plan, so the
per-plan failure never drops entries or aborts the run. -/
theorem backupPlans_degrade_on_selection_failure (ps : List PlanInput)
    (p : PlanInput) (hp : p ∈ ps) (_hfail : p.selFetch.failed = true) :
    (get_backup_plans ps).length = ps.length ∧
    ∃ e ∈ get_backup_plans ps,
      e.plan_id = p.BackupPlanId ∧
      e.selections = p.selFetch.fetched.map mkSelEntry ∧
      e.plan_name = p.BackupPlanName.getD "N/A" ∧
      e.version_id = p.VersionId.getD "N/A" ∧
      e.creation_date = fmtYMDHM p.CreationDate ∧
      e.deployment_status = p.DeploymentStatus.getD "N/A" ∧
      e.rules = (p.Rules.getD []).map mkRuleEntry := by
  refine ⟨List.length_map ps mkPlanEntry, mkPlanEntry p, List.mem_map_of_mem mkPlanEntry hp,
    rfl, rfl, rfl, rfl, rfl, rfl, rfl⟩

theorem backupPlans_degrade_on_selection_failure_witness :
    (get_backup_plans [c8plan]).length = [c8plan].length ∧
    ∃ e ∈ get_backup_plans [c8plan],
      e.plan_id = c8plan.BackupPlanId ∧
      e.selections = c8plan.selFetch.fetched.map mkSelEntry ∧
      e.plan_name = c8plan.BackupPlanName.getD "N/A" ∧
      e.version_id = c8plan.VersionId.getD "N/A" ∧
      e.creation_date = fmtYMDHM c8plan.CreationDate ∧
      e.deployment_status = c8plan.DeploymentStatus.getD "N/A" ∧
      e.rules = (c8plan.Rules.getD []).map mkRuleEntry :=
  backupPlans_degrade_on_selection_failure [c8plan] c8plan
    (List.mem_singleton.mpr rfl) rfl

theorem bumpResource_pos (rid : String) (gb : Rat) :
    ∀ (m : List (String × Nat × Rat)), (∀ a ∈ m, 0 < a.2.1) →
      ∀ e ∈ bumpResource rid gb m, 0 < e.2.1 := by
  intro m
  induction m with
  | nil =>
    intro _ e he
    simp only [bumpResource] at he
    rcases List.mem_singleton.mp he with rfl
    norm_num
  | cons p rest ih =>
    obtain ⟨k, c, s⟩ := p
    intro hm e he
    simp only [bumpResource] at he
    by_cases hk : k = rid
    · rw [if_pos hk] at he
      rcases List.mem_cons.mp he with h1 | h2
      · subst h1
        simp
      · exact hm e (List.mem_cons_of_mem _ h2)
    · rw [if_neg hk] at he
      rcases List.mem_cons.mp he with h1 | h2
      · subst h1
        exact hm (k, c, s) (List.mem_cons_self _ _)
      · exact ih (fun a ha => hm a (List.mem_cons_of_mem _ ha)) e h2

theorem resourceSummaryAcc_pos_fold :
    ∀ (bs : List ViewRec) (acc : List (String × Nat × Rat)),
      (∀ a ∈ acc, 0 < a.2.1) →
      ∀ e ∈ bs.foldl (fun acc j => bumpResource j.resource_id j.backup_size_gb acc) acc,
        0 < e.2.1 := by
  intro bs
  induction bs with
  | nil => intro acc hacc e he; exact hacc e he
  | cons b t ih =>
    intro acc hacc e he
    simp only [List.foldl_cons] at he
    exact ih _ (bumpResource_pos _ _ acc hacc) e he

/-- C10: every entry of the Resource Summary grouping is created only when a
job with its resource id is processed, so its count is at least 1 and the
divisor of the Average Size (GB) division of the corresponding sheet row is
never zero. -/
theorem resourceSummary_count_pos (backups : List ViewRec)
    (e : String × Nat × Rat) (he : e ∈ resourceSummaryAcc backups) :
    0 < e.2.1 ∧ ((e.2.1 : Rat) ≠ 0) ∧
    ({ resource_id := e.1
       total_backups := e.2.1
       total_size_tb := round2 (e.2.2 / 1024)
       average_size_gb := round2 (e.2.2 / (e.2.1 : Rat)) } : ResourceRow)
      ∈ resourceSummaryTable backups := by
  have hpos : 0 < e.2.1 := resourceSummaryAcc_pos_fold backups [] (by simp) e he
  refine ⟨hpos, Nat.cast_ne_zero.mpr hpos.ne', List.mem_map_of_mem _ he⟩

/-- The single grouping entry of the one-row sample report. -/
def c10entry : String × Nat × Rat := ("vol-1", 1, c9viewrec.backup_size_gb)

theorem resourceSummary_count_pos_witness :
    0 < c10entry.2.1 ∧ ((c10entry.2.1 : Rat) ≠ 0) ∧
    ({ resource_id := c10entry.1
       total_backups := c10entry.2.1
       total_size_tb := round2 (c10entry.2.2 / 1024)
       average_size_gb := round2 (c10entry.2.2 / (c10entry.2.1 : Rat)) } : ResourceRow)
      ∈ resourceSummaryTable [c9viewrec] :=
  resourceSummary_count_pos [c9viewrec] c10entry (by
    show c10entry ∈ [c10entry]
    exact List.mem_singleton.mpr rfl)

/-- C9: the Tabular Projector leaves the report document unchanged, and a
second invocation on the document it leaves behind returns the identical
table contents; as everything it reads is the argument document, any number
of repeated invocations return the same tables. -/
theorem createExcelReport_pure_idempotent (r : Report) (t : Tables) (r' : Report)
    (h : create_excel_report r = Except.ok (t, r')) :
    r' = r ∧ create_excel_report r' = Except.ok (t, r') := by
  unfold create_excel_report at h ⊢
  cases hs : summaryTable r with
  | error e =>
    rw [hs] at h
    exact Except.noConfusion h
  | ok sm =>
    rw [hs] at h
    rw [Except.ok.injEq, Prod.mk.injEq] at h
    obtain ⟨ht, hr⟩ := h
    subst hr
    subst ht
    rw [hs]
    exact ⟨rfl, rfl⟩

theorem createExcelReport_pure_idempotent_witness :
    c9pair.2 = c9report ∧ create_excel_report c9pair.2 = Except.ok (c9pair.1, c9pair.2) :=
  createExcelReport_pure_idempotent c9report c9pair.1 c9pair.2 rfl

/-- C1 counterexample: with jobs of one resource created in 2024-01 and
2024-03 and no job anywhere in 2024-02, the pivot column months are exactly
the two observed month labels; 2024-02 lies inside the observed calendar
range yet gets no column triplet, so the column set does not span the full
range from earliest to latest observed month. -/
theorem monthlyPivot_range_gap_missing :
    pivotMonthsOf c1gapBackups = ["2024-01", "2024-03"] ∧
    monthInRange "2024-02" ((pivotMonthsOf c1gapBackups).headD "")
      ((pivotMonthsOf c1gapBackups).getLastD "") = true ∧
    "2024-02" ∉ pivotMonthsOf c1gapBackups ∧
    "vol-1" ∈ pivotRowsOf c1gapBackups := by decide

/-- C1 (amended): a column triplet exists for each distinct month present in
the job data (chronologically sorted, not for gap months with no jobs at
all), and for every observed resource id and every such observed month the
pivot row carries an explicit (0, 0, 0) triplet when that pair has no jobs,
never an absent cell. -/
theorem monthlyPivot_zero_fill (backups : List ViewRec) (rid m : String)
    (hr : rid ∈ pivotRowsOf backups) (hm : m ∈ pivotMonthsOf backups)
    (hempty : cellJobs backups rid m = []) :
    (rid, pivotRowFor backups rid) ∈ monthlyPivotTable backups ∧
    pivotCell backups rid m = (0, 0, 0) ∧
    [(0 : Rat), 0, 0] <:+: pivotRowFor backups rid := by
  have hcell : pivotCell backups rid m = (0, 0, 0) := by
    simp [pivotCell, hempty]
  refine ⟨List.mem_map_of_mem _ hr, hcell, ?_⟩
  obtain ⟨s, t2, hst⟩ := List.append_of_mem hm
  unfold pivotRowFor
  rw [hst, List.flatMap_append, List.flatMap_cons]
  refine ⟨s.flatMap (fun m2 => [(pivotCell backups rid m2).1,
      (pivotCell backups rid m2).2.1, (pivotCell backups rid m2).2.2]),
    t2.flatMap (fun m2 => [(pivotCell backups rid m2).1,
      (pivotCell backups rid m2).2.1, (pivotCell backups rid m2).2.2]), ?_⟩
  rw [hcell]
  simp [List.append_assoc]

theorem monthlyPivot_zero_fill_witness :
    ("vol-2", pivotRowFor c1wBackups "vol-2") ∈ monthlyPivotTable c1wBackups ∧
    pivotCell c1wBackups "vol-2" "2024-01" = (0, 0, 0) ∧
    [(0 : Rat), 0, 0] <:+: pivotRowFor c1wBackups "vol-2" :=
  monthlyPivot_zero_fill c1wBackups "vol-2" "2024-01" (by decide) (by decide)
    (by decide)
